import Mathlib

/-!
Shallow embedding of the container schema synthesis engine of
`utoipa-gen` (`src/utoipa-gen/src/component/schema.rs`).

The token streams emitted by the Rust code are modelled by the inductive
`Tok`, whose constructors mirror the builder-method chains appearing in
the `quote!` blocks of the source.  External collaborators (the type
resolver, the feature parser, the serde rule extractor) are modelled as
pre-resolved data carried on the input structures, exactly as the source
consumes them.
-/

/-- A case-transform rule (serde `rename_all`).  The transform itself is
implemented outside the synthesis source, so it is carried as an opaque
string function. -/
structure RenameRule where
  apply : String → String

/-- Resolved view of a field's declared type, as produced by
`TypeTree::from_type`.  `id` stands in for the structural identity that
`PartialEq` compares; `isOption`, `isMap` and `isObject` model
`TypeTree::is_option`, `TypeTree::is_map` and
`value_type == ValueType::Object`. -/
structure TypeTree where
  id : Nat
  isOption : Bool := false
  isMap : Bool := false
  isObject : Bool := false
deriving DecidableEq

/-- Per-field / per-variant serde rules (`SerdeValue`). -/
structure SerdeValue where
  skip : Bool := false
  rename : Option String := none
  flatten : Bool := false
  default : Bool := false
deriving DecidableEq

/-- Serde enum representation (`SerdeEnumRepr`). -/
inductive SerdeEnumRepr where
  | externallyTagged
  | internallyTagged (tag : String)
  | adjacentlyTagged (tag content : String)
  | untagged
  | unfinishedAdjacentlyTagged (tag : String)

/-- Container-level serde rules (`SerdeContainer`). -/
structure SerdeContainer where
  rename_all : Option RenameRule := none
  deny_unknown_fields : Bool := false
  default : Bool := false
  enum_repr : SerdeEnumRepr := .externallyTagged

/-- A named struct field together with its pre-parsed serde rules and
schema features, as read by `NamedStructSchema`. -/
structure NamedField where
  ident : String
  tree : TypeTree
  rules : SerdeValue := {}
  featRename : Option String := none
  featRequired : Option Bool := none
  featValueType : Option TypeTree := none
  featSchemaWith : Bool := false
  comments : String := ""
  deprecated : Bool := false
deriving DecidableEq

/-- An unnamed (positional) struct field. -/
structure UnnamedField where
  tree : TypeTree
deriving DecidableEq

/-- Input of `NamedStructSchema::to_tokens`. -/
structure NamedStruct where
  structName : String
  fields : List NamedField
  container : SerdeContainer := {}
  renameAll : Option RenameRule := none
  comments : String := ""
  deprecated : Bool := false

/-- Input of `UnnamedStructSchema::to_tokens`. -/
structure UnnamedStruct where
  structName : String
  fields : List UnnamedField
  featValueType : Option TypeTree := none
  comments : String := ""
  deprecated : Bool := false

/-- Synthesis diagnostics raised by the schema synthesis source. -/
inductive Diag where
  | multipleFlattenedMaps (structName firstField secondField : String)
  | unsupportedInternallyTaggedTuple (variantIdent : String)
  | unsupportedAdjacentlyTaggedTuple (variantIdent : String)
deriving DecidableEq

/-- The emitted token stream, modelled as the builder-call chain appearing
in the `quote!` blocks of the source.  `component` and `flattenedMap`
stand for the opaque output of `ComponentSchema::new` and
`FlattenedMapSchema::new`; `enumValues` stands for the rendering of
`Enum::new([...])` from the `enum_variant` module. -/
inductive Tok where
  | objectBuilder
  | allOfBuilder
  | emptySchema
  | schemaWith
  | component (tree : TypeTree) (description : String) (deprecated : Bool)
  | flattenedMap (tree : TypeTree) (description : String) (deprecated : Bool)
  | enumValues (values : List String)
  | property (base : Tok) (name : String) (value : Tok)
  | required (base : Tok) (name : String)
  | item (base : Tok) (inner : Tok)
  | additionalPropertiesSchema (base : Tok) (value : Tok)
  | additionalPropertiesFreeForm (base : Tok) (allowed : Bool)
  | schemaTypeObject (base : Tok)
  | deprecatedTag (base : Tok)
  | descriptionTag (base : Tok) (text : String)
  | toArrayBuilder (base : Tok)
  | maxItems (base : Tok) (bound : Nat)
  | minItems (base : Tok) (bound : Nat)
deriving DecidableEq

deriving instance DecidableEq for Except

/-- Strips a raw-identifier marker, mirroring the
`field_name.starts_with("r#")` / `field_name[2..]` step at the top of
`NamedStructSchema::to_tokens` (the prefix check and the 2-byte slice
coincide with matching the first two characters). -/
def stripRaw (s : String) : String :=
  match s.data with
  | 'r' :: '#' :: rest => String.mk rest
  | _ => s

/-- Modelled from the spec: `super::rename` lives in the component module,
outside the synthesis source.  Per §4.1, an explicit rename wins, else the
inherited rename-all transform is applied to the identifier, else no
rename is produced. -/
def renameOpt (name : String) (renameTo : Option String)
    (renameAll : Option RenameRule) : Option String :=
  match renameTo with
  | some explicit => some explicit
  | none => renameAll.map (fun rule => rule.apply name)

/-- Modelled from the spec: `super::is_required` lives outside the
synthesis source.  Per §8, a field is required when neither it nor its
container is defaulted. -/
def is_required (rules : SerdeValue) (container : SerdeContainer) : Bool :=
  !rules.default && !container.default

/-- The effective type of a field after the `value_type` feature override
(`override_type_tree.as_ref().unwrap_or(type_tree)`). -/
def effectiveTree (f : NamedField) : TypeTree :=
  f.featValueType.getD f.tree

/-- The three property kinds of `get_named_struct_field_options`:
`schema_with` wins, then a flattened map type, then a plain component. -/
inductive PropertyKind where
  | schemaWith
  | flattenedMap
  | schema
deriving DecidableEq

/-- Which `Property` constructor `get_named_struct_field_options` picks. -/
def propertyKind (f : NamedField) : PropertyKind :=
  if f.featSchemaWith then .schemaWith
  else if f.rules.flatten && (effectiveTree f).isMap then .flattenedMap
  else .schema

/-- The token stream of one field's `Property`. -/
def propertyTok (f : NamedField) : Tok :=
  match propertyKind f with
  | .schemaWith => .schemaWith
  | .flattenedMap => .flattenedMap (effectiveTree f) f.comments f.deprecated
  | .schema => .component (effectiveTree f) f.comments f.deprecated

/-- Resolved wire name of a named field: serde rename, else feature
rename, else the container/struct rename-all transform, else the
(raw-marker stripped) identifier (lines 408-411 and 458-470). -/
def resolvedFieldName (s : NamedStruct) (f : NamedField) : String :=
  let fieldName := stripRaw f.ident
  let renameTo := f.rules.rename.orElse fun _ => f.featRename
  let renameAll := s.container.rename_all.orElse fun _ => s.renameAll
  (renameOpt fieldName renameTo renameAll).getD fieldName

/-- Fields that receive a `.property` entry: not skipped and not
flattened (line 431). -/
def visibleFields (s : NamedStruct) : List NamedField :=
  s.fields.filter fun f => !f.rules.skip && !f.rules.flatten

/-- Fields split out for flatten composition (line 493). -/
def flattenFields (s : NamedStruct) : List NamedField :=
  s.fields.filter fun f => f.rules.flatten

/-- One step of the property fold (lines 443-489): add the property, then
mark it required when the field is non-optional and required by the rules,
or when the explicit required override is true. -/
def addProperty (s : NamedStruct) (acc : Tok) (f : NamedField) : Tok :=
  let name := resolvedFieldName s f
  let acc := Tok.property acc name (propertyTok f)
  if (!(effectiveTree f).isOption && is_required f.rules s.container)
      || f.featRequired.getD false then
    Tok.required acc name
  else acc

/-- The `object_tokens` fold over the visible fields (lines 429-489). -/
def objectTokens (s : NamedStruct) : Tok :=
  (visibleFields s).foldl (addProperty s) Tok.objectBuilder

/-- The flatten loop (lines 500-529): plain / schema-with flattened
fields are queued as AllOf items; the first flattened-map field is
attached as `additional_properties` on the object; a second flattened-map
field is a hard error naming the struct and both fields. -/
def processFlatten (structName : String) :
    List NamedField → Tok → List Tok → Option NamedField →
    Except Diag (Tok × List Tok)
  | [], obj, items, _ => .ok (obj, items)
  | f :: rest, obj, items, mapField =>
    match propertyKind f with
    | .schemaWith =>
        processFlatten structName rest obj (items ++ [propertyTok f]) mapField
    | .schema =>
        processFlatten structName rest obj (items ++ [propertyTok f]) mapField
    | .flattenedMap =>
        match mapField with
        | none =>
            processFlatten structName rest
              (Tok.additionalPropertiesSchema obj (propertyTok f)) items (some f)
        | some firstMap =>
            .error (.multipleFlattenedMaps structName firstMap.ident f.ident)

/-- Appends AllOf `.item(...)` calls in order. -/
def appendItems (base : Tok) : List Tok → Tok
  | [] => base
  | i :: rest => appendItems (Tok.item base i) rest

/-- The tail of `NamedStructSchema::to_tokens` (lines 496-566): wrap in
AllOf when flatten items exist (`all_of` is true exactly when the flatten
field list and the flattened item tokens are both non-empty), then apply
`deny_unknown_fields`, deprecation and description. -/
def assembleNamed (s : NamedStruct) (obj : Tok) (items : List Tok) : Tok :=
  let allOf := !(flattenFields s).isEmpty && !items.isEmpty
  let body :=
    if allOf then Tok.item (appendItems Tok.allOfBuilder items) obj else obj
  let body :=
    if !allOf && s.container.deny_unknown_fields then
      Tok.additionalPropertiesFreeForm body false
    else body
  let body := if s.deprecated then Tok.deprecatedTag body else body
  if s.comments == "" then body else Tok.descriptionTag body s.comments

/-- `NamedStructSchema::to_tokens` (lines 400-569): build the object,
process the flattened fields, then assemble the final node. -/
def namedStructTokens (s : NamedStruct) : Except Diag Tok :=
  match processFlatten s.structName (flattenFields s) (objectTokens s) [] none with
  | .error d => .error d
  | .ok (obj, items) => .ok (assembleNamed s obj items)

/-- `UnnamedStructSchema::to_tokens` (lines 581-658).  The result is
`none` when the field list is empty, modelling the panic of
`self.fields.first().unwrap()`. -/
def unnamedStructTokens (s : UnnamedStruct) : Option Tok :=
  match s.fields with
  | [] => none
  | firstField :: rest =>
    let len := rest.length + 1
    let allSame := rest.all fun f => decide (f.tree = firstField.tree)
    let base :=
      if allSame then
        Tok.component (s.featValueType.getD firstField.tree) s.comments s.deprecated
      else if s.deprecated then Tok.deprecatedTag Tok.objectBuilder
      else Tok.objectBuilder
    if 1 < len then
      some (Tok.minItems
        (Tok.maxItems (Tok.descriptionTag (Tok.toArrayBuilder base) s.comments) len)
        len)
    else some base

/-- The shape of an enum variant's fields. -/
inductive VariantShape where
  | unit
  | named (fields : List NamedField)
  | unnamed (fields : List UnnamedField)
deriving DecidableEq

/-- A complex-enum variant together with its pre-parsed serde rules and
features.  `innerContainer` models `serde::parse_container(variant.attrs)`
as parsed inside the nested struct schema of the variant. -/
structure EnumVariant where
  ident : String
  shape : VariantShape
  rules : SerdeValue := {}
  featRename : Option String := none
  featValueType : Option TypeTree := none
  innerRenameAll : Option RenameRule := none
  innerContainer : SerdeContainer := {}
  comments : String := ""

/-- Input of `ComplexEnum::to_tokens`. -/
structure ComplexEnumDecl where
  enumName : String
  variants : List EnumVariant
  container : SerdeContainer := {}
  renameAll : Option RenameRule := none

/-- `rename_enum_variant` (lines 873-894): serde rename, else popped
rename feature, else container / enum rename-all. -/
def rename_enum_variant (name : String) (featRename : Option String)
    (variantRules : SerdeValue) (container : SerdeContainer)
    (renameAll : Option RenameRule) : Option String :=
  let renameTo := variantRules.rename.orElse fun _ => featRename
  let ra := container.rename_all.orElse fun _ => renameAll
  renameOpt name renameTo ra

/-- A variant's resolved wire name: `rename_enum_variant(...).unwrap_or(name)`
where `name` is `variant.ident.to_string()` verbatim. -/
def variantResolvedName (v : EnumVariant) (container : SerdeContainer)
    (renameAll : Option RenameRule) : String :=
  (rename_enum_variant v.ident v.featRename v.rules container renameAll).getD v.ident

/-- The nested `NamedStructSchema` built for a named-fields variant:
`struct_name` is the enum's name, the attributes are the variant's. -/
def variantNamedStruct (enumName : String) (v : EnumVariant)
    (fields : List NamedField) : NamedStruct :=
  { structName := enumName
    fields := fields
    container := v.innerContainer
    renameAll := v.innerRenameAll
    comments := v.comments
    deprecated := false }

/-- The nested `UnnamedStructSchema` built for a positional variant. -/
def variantUnnamedStruct (enumName : String) (v : EnumVariant)
    (fields : List UnnamedField) : UnnamedStruct :=
  { structName := enumName
    fields := fields
    featValueType := v.featValueType
    comments := v.comments
    deprecated := false }

/-- Modelled from the spec: the rendering of `ObjectVariant` from the
`enum_variant` module (not part of the synthesis source) — a single-key
object `{name: item}` per the §4.3 state-machine table. -/
def objectVariant (name : String) (inner : Tok) : Tok :=
  Tok.property Tok.objectBuilder name inner

/-- `ComplexEnum::variant_tokens` (lines 1016-1136): externally tagged
variant rendering. -/
def externallyTaggedVariantTokens (enumName : String) (v : EnumVariant)
    (container : SerdeContainer) (renameAll : Option RenameRule) :
    Option (Except Diag Tok) :=
  match v.shape with
  | .named fields =>
    match namedStructTokens (variantNamedStruct enumName v fields) with
    | .error d => some (.error d)
    | .ok inner =>
      some (.ok (objectVariant (variantResolvedName v container renameAll) inner))
  | .unnamed fields =>
    match unnamedStructTokens (variantUnnamedStruct enumName v fields) with
    | none => none
    | some inner =>
      some (.ok (objectVariant (variantResolvedName v container renameAll) inner))
  | .unit =>
    some (.ok (Tok.enumValues [variantResolvedName v container renameAll]))

/-- `ComplexEnum::untagged_variant_tokens` (lines 1140-1186): the inner
schema as-is; a unit variant renders the untagged empty schema. -/
def untaggedVariantTokens (enumName : String) (v : EnumVariant) :
    Option (Except Diag Tok) :=
  match v.shape with
  | .named fields =>
    match namedStructTokens (variantNamedStruct enumName v fields) with
    | .error d => some (.error d)
    | .ok inner => some (.ok inner)
  | .unnamed fields =>
    match unnamedStructTokens (variantUnnamedStruct enumName v fields) with
    | none => none
    | some inner => some (.ok inner)
  | .unit => some (.ok Tok.emptySchema)

/-- `ComplexEnum::tagged_variant_tokens` (lines 1190-1344): internally
tagged variant rendering.  A positional variant is only legal with
exactly one field; with one field whose type resolves to a reference
(object) type the result is an AllOf of the inner schema and a
tag-only object, otherwise the tag is added onto the inner schema. -/
def taggedVariantTokens (enumName tag : String) (v : EnumVariant)
    (container : SerdeContainer) (renameAll : Option RenameRule) :
    Option (Except Diag Tok) :=
  match v.shape with
  | .named fields =>
    let variantName := variantResolvedName v container renameAll
    match namedStructTokens (variantNamedStruct enumName v fields) with
    | .error d => some (.error d)
    | .ok inner =>
      some (.ok (Tok.required
        (Tok.property inner tag (Tok.enumValues [variantName])) tag))
  | .unnamed fields =>
    if fields.length = 1 then
      let variantName := variantResolvedName v container renameAll
      match unnamedStructTokens (variantUnnamedStruct enumName v fields) with
      | none => none
      | some inner =>
        let isReference := fields.any fun f => f.tree.isObject
        if isReference then
          some (.ok (Tok.item
            (Tok.item Tok.allOfBuilder inner)
            (Tok.required
              (Tok.property (Tok.schemaTypeObject Tok.objectBuilder) tag
                (Tok.enumValues [variantName])) tag)))
        else
          some (.ok (Tok.required
            (Tok.property (Tok.schemaTypeObject inner) tag
              (Tok.enumValues [variantName])) tag))
    else some (.error (.unsupportedInternallyTaggedTuple v.ident))
  | .unit =>
    let variantName := variantResolvedName v container renameAll
    some (.ok (Tok.required
      (Tok.property Tok.objectBuilder tag (Tok.enumValues [variantName])) tag))

/-- `ComplexEnum::adjacently_tagged_variant_tokens` (lines 1348-1490):
adjacently tagged variant rendering; a positional variant is only legal
with exactly one field. -/
def adjacentlyTaggedVariantTokens (enumName tag content : String)
    (v : EnumVariant) (container : SerdeContainer)
    (renameAll : Option RenameRule) : Option (Except Diag Tok) :=
  match v.shape with
  | .named fields =>
    let variantName := variantResolvedName v container renameAll
    match namedStructTokens (variantNamedStruct enumName v fields) with
    | .error d => some (.error d)
    | .ok inner =>
      some (.ok (Tok.required
        (Tok.property
          (Tok.required
            (Tok.property (Tok.schemaTypeObject Tok.objectBuilder) tag
              (Tok.enumValues [variantName])) tag)
          content inner) content))
  | .unnamed fields =>
    if fields.length = 1 then
      let variantName := variantResolvedName v container renameAll
      match unnamedStructTokens (variantUnnamedStruct enumName v fields) with
      | none => none
      | some inner =>
        some (.ok (Tok.required
          (Tok.property
            (Tok.required
              (Tok.property (Tok.schemaTypeObject Tok.objectBuilder) tag
                (Tok.enumValues [variantName])) tag)
            content inner) content))
    else some (.error (.unsupportedAdjacentlyTaggedTuple v.ident))
  | .unit =>
    let variantName := variantResolvedName v container renameAll
    some (.ok (Tok.required
      (Tok.property Tok.objectBuilder tag (Tok.enumValues [variantName])) tag))

/-- Dispatch of `ComplexEnum::to_tokens` over the enum representation
(lines 1522-1556).  The `UnfinishedAdjacentlyTagged` arm is
`unreachable!`, modelled as `none`. -/
def complexEnumVariantTokens (e : ComplexEnumDecl) (v : EnumVariant) :
    Option (Except Diag Tok) :=
  match e.container.enum_repr with
  | .externallyTagged =>
      externallyTaggedVariantTokens e.enumName v e.container e.renameAll
  | .internallyTagged tag =>
      taggedVariantTokens e.enumName tag v e.container e.renameAll
  | .untagged => untaggedVariantTokens e.enumName v
  | .adjacentlyTagged tag content =>
      adjacentlyTaggedVariantTokens e.enumName tag content v e.container e.renameAll
  | .unfinishedAdjacentlyTagged _ => none

/-- The in-order collection of variant token streams, mirroring the
short-circuiting `collect::<Result<CustomEnum, Diagnostics>>`. -/
def buildVariants (e : ComplexEnumDecl) :
    List EnumVariant → Option (Except Diag (List Tok))
  | [] => some (.ok [])
  | v :: rest =>
    match complexEnumVariantTokens e v with
    | none => none
    | some (.error d) => some (.error d)
    | some (.ok t) =>
      match buildVariants e rest with
      | none => none
      | some (.error d) => some (.error d)
      | some (.ok ts) => some (.ok (t :: ts))

/-- The discriminator hint attached by `with_discriminator`
(lines 1499-1505, 1558). -/
def discriminatorOf : SerdeEnumRepr → Option String
  | .internallyTagged tag => some tag
  | .adjacentlyTagged tag _ => some tag
  | _ => none

/-- `ComplexEnum::to_tokens` (lines 1493-1563): skipped variants are
filtered out, every remaining variant is rendered under the container's
representation, and the result is the ordered list of variant schemas
plus the discriminator hint (the union node assembled by `CustomEnum`
from the `enum_variant` module). -/
def complexEnumTokens (e : ComplexEnumDecl) :
    Option (Except Diag (List Tok × Option String)) :=
  match buildVariants e (e.variants.filter fun v => !v.rules.skip) with
  | none => none
  | some (.error d) => some (.error d)
  | some (.ok ts) => some (.ok (ts, discriminatorOf e.container.enum_repr))

/-- Classification of a whole enum declaration (`EnumSchema::new`,
lines 667-776, with the `repr` feature enabled). -/
inductive EnumSchemaType where
  | simple
  | reprE (ty : String)
  | complexE
deriving DecidableEq

/-- Whether a variant has the unit shape. -/
def isUnitShape : VariantShape → Bool
  | .unit => true
  | _ => false

/-- Declaration-level input of `EnumSchema::new`: the variants plus the
parsed `#[repr(...)]` base type when one is declared. -/
structure EnumDecl where
  enumName : String
  variants : List EnumVariant
  reprType : Option String := none
  container : SerdeContainer := {}
  renameAll : Option RenameRule := none

/-- `EnumSchema::new`: all-unit enums are `Repr` when a numeric
discriminant base type is declared and `Simple` otherwise; any non-unit
variant makes the enum `Complex`. -/
def classifyEnum (d : EnumDecl) : EnumSchemaType :=
  if d.variants.all fun v => isUnitShape v.shape then
    match d.reprType with
    | some ty => .reprE ty
    | none => .simple
  else .complexE

/-- A single enum value in the emitted value list: either an identifier
string (`SimpleEnumVariant`) or the variant cast to the declared base
type (`ReprVariant`, `Self::V as repr_type`). -/
inductive EnumValue where
  | strVal (value : String)
  | castVal (variantIdent reprTy : String)
deriving DecidableEq

/-- `ReprEnum::to_tokens` value list (lines 836-860): every non-skipped
variant contributes its cast `Self::V as repr_type` value. -/
def reprEnumValues (d : EnumDecl) (ty : String) : List EnumValue :=
  (d.variants.filter fun v => !v.rules.skip).map fun v => .castVal v.ident ty

/-- `SimpleEnum::to_tokens` value list (lines 904-958): every non-skipped
variant contributes its resolved name as a string value. -/
def simpleEnumValues (d : EnumDecl) : List EnumValue :=
  (d.variants.filter fun v => !v.rules.skip).map fun v =>
    .strVal (variantResolvedName v d.container d.renameAll)

/-- One segment of a schema-as path; `args` is the rendered generic
argument suffix, empty when the segment has no arguments. -/
structure PathSegment where
  ident : String
  args : String := ""
deriving DecidableEq

/-- Clears the generic arguments of the last path segment
(`last_segment.arguments = PathArguments::None`). -/
def stripLastArgs : List PathSegment → List PathSegment
  | [] => []
  | [seg] => [{ seg with args := "" }]
  | seg :: rest => seg :: stripLastArgs rest

/-- `format_path_ref` (lines 1597-1607): strip the last segment's generic
arguments and render the whole path with `::` separators replaced by `.`. -/
def format_path_ref (segs : List PathSegment) : String :=
  String.intercalate "." ((stripLastArgs segs).map fun seg => seg.ident ++ seg.args)

/-- The resolved externally visible schema name (lines 153-157): the
type's own identifier unless a `schema(as = ...)` override names a path. -/
def schemaName (ident : String) (schemaAs : Option (List PathSegment)) : String :=
  match schemaAs with
  | none => ident
  | some path => format_path_ref path

/-- Observer: the top-level `min_items` bound of a token chain. -/
def minItemsOf : Tok → Option Nat
  | .minItems _ n => some n
  | _ => none

/-- Observer: the `max_items` bound of an array token chain. -/
def maxItemsOf : Tok → Option Nat
  | .minItems base _ => maxItemsOf base
  | .maxItems _ n => some n
  | _ => none

/-- Observer: the element schema inside a `to_array_builder` chain;
`none` when the chain carries no array wrapper. -/
def arrayElement : Tok → Option Tok
  | .minItems base _ => arrayElement base
  | .maxItems base _ => arrayElement base
  | .descriptionTag base _ => arrayElement base
  | .toArrayBuilder base => some base
  | _ => none

/-- Observer: the description attached to an array wrapper chain. -/
def arrayDescription : Tok → Option String
  | .minItems base _ => arrayDescription base
  | .maxItems base _ => arrayDescription base
  | .descriptionTag _ text => some text
  | _ => none

/-- Observer: every `additional_properties(Some(schema))` value occurring
in a token chain, in order. -/
def additionalSchemas : Tok → List Tok
  | .property base _ value => additionalSchemas base ++ additionalSchemas value
  | .required base _ => additionalSchemas base
  | .item base inner => additionalSchemas base ++ additionalSchemas inner
  | .additionalPropertiesSchema base value =>
      additionalSchemas base ++ additionalSchemas value ++ [value]
  | .additionalPropertiesFreeForm base _ => additionalSchemas base
  | .schemaTypeObject base => additionalSchemas base
  | .deprecatedTag base => additionalSchemas base
  | .descriptionTag base _ => additionalSchemas base
  | .toArrayBuilder base => additionalSchemas base
  | .maxItems base _ => additionalSchemas base
  | .minItems base _ => additionalSchemas base
  | _ => []

/-- Observer: whether `additional_properties(Some(FreeForm(false)))`
occurs anywhere in a token chain. -/
def containsFreeFormFalse : Tok → Bool
  | .property base _ value => containsFreeFormFalse base || containsFreeFormFalse value
  | .required base _ => containsFreeFormFalse base
  | .item base inner => containsFreeFormFalse base || containsFreeFormFalse inner
  | .additionalPropertiesSchema base value =>
      containsFreeFormFalse base || containsFreeFormFalse value
  | .additionalPropertiesFreeForm base allowed =>
      !allowed || containsFreeFormFalse base
  | .schemaTypeObject base => containsFreeFormFalse base
  | .deprecatedTag base => containsFreeFormFalse base
  | .descriptionTag base _ => containsFreeFormFalse base
  | .toArrayBuilder base => containsFreeFormFalse base
  | .maxItems base _ => containsFreeFormFalse base
  | .minItems base _ => containsFreeFormFalse base
  | _ => false

/-- Observer: the ordered `.property(name, _)` entries occurring in a
token chain. -/
def propNamesDeep : Tok → List String
  | .property base name value => propNamesDeep base ++ name :: propNamesDeep value
  | .required base _ => propNamesDeep base
  | .item base inner => propNamesDeep base ++ propNamesDeep inner
  | .additionalPropertiesSchema base value => propNamesDeep base ++ propNamesDeep value
  | .additionalPropertiesFreeForm base _ => propNamesDeep base
  | .schemaTypeObject base => propNamesDeep base
  | .deprecatedTag base => propNamesDeep base
  | .descriptionTag base _ => propNamesDeep base
  | .toArrayBuilder base => propNamesDeep base
  | .maxItems base _ => propNamesDeep base
  | .minItems base _ => propNamesDeep base
  | _ => []

/-- Whether a flattened field's property is the flattened-map kind. -/
def isMapKind (f : NamedField) : Bool :=
  match propertyKind f with
  | .flattenedMap => true
  | _ => false

/-- The flattened fields whose property is a flattened map, in
declaration order. -/
def mapFlattenFields (s : NamedStruct) : List NamedField :=
  (flattenFields s).filter isMapKind

/-- The AllOf item token streams contributed by the non-map flattened
fields, in declaration order. -/
def nonMapToks (l : List NamedField) : List Tok :=
  (l.filter fun f => !isMapKind f).map propertyTok

/-- Closed form of the flatten loop: the outcome is determined by the
flattened-map fields among the processed list and the map field already
seen. -/
def processFlattenChar (n : String) (l : List NamedField) (obj : Tok)
    (items : List Tok) (mf : Option NamedField) : Except Diag (Tok × List Tok) :=
  match mf, l.filter isMapKind with
  | some m, b :: _ => .error (.multipleFlattenedMaps n m.ident b.ident)
  | some _, [] => .ok (obj, items ++ nonMapToks l)
  | none, [] => .ok (obj, items ++ nonMapToks l)
  | none, [a] =>
      .ok (.additionalPropertiesSchema obj (propertyTok a), items ++ nonMapToks l)
  | none, a :: b :: _ => .error (.multipleFlattenedMaps n a.ident b.ident)

theorem processFlatten_eq (n : String) (l : List NamedField) :
    ∀ (obj : Tok) (items : List Tok) (mf : Option NamedField),
    processFlatten n l obj items mf = processFlattenChar n l obj items mf := by
  induction l with
  | nil =>
    intro obj items mf
    cases mf <;> simp [processFlatten, processFlattenChar, nonMapToks]
  | cons f rest ih =>
    intro obj items mf
    cases hk : propertyKind f with
    | schemaWith =>
      have hm : isMapKind f = false := by simp [isMapKind, hk]
      cases mf <;>
        rcases hf : rest.filter isMapKind with _ | ⟨a, _ | ⟨b, tl⟩⟩ <;>
        simp [processFlatten, hk, ih, processFlattenChar, List.filter_cons, hm, hf,
          nonMapToks]
    | schema =>
      have hm : isMapKind f = false := by simp [isMapKind, hk]
      cases mf <;>
        rcases hf : rest.filter isMapKind with _ | ⟨a, _ | ⟨b, tl⟩⟩ <;>
        simp [processFlatten, hk, ih, processFlattenChar, List.filter_cons, hm, hf,
          nonMapToks]
    | flattenedMap =>
      have hm : isMapKind f = true := by simp [isMapKind, hk]
      cases mf <;>
        rcases hf : rest.filter isMapKind with _ | ⟨a, _ | ⟨b, tl⟩⟩ <;>
        simp [processFlatten, hk, ih, processFlattenChar, List.filter_cons, hm, hf,
          nonMapToks]

theorem propertyTok_propNames (f : NamedField) :
    propNamesDeep (propertyTok f) = [] := by
  cases hk : propertyKind f <;> simp [propertyTok, hk, propNamesDeep]

theorem propertyTok_cff (f : NamedField) :
    containsFreeFormFalse (propertyTok f) = false := by
  cases hk : propertyKind f <;> simp [propertyTok, hk, containsFreeFormFalse]

theorem propertyTok_addl (f : NamedField) :
    additionalSchemas (propertyTok f) = [] := by
  cases hk : propertyKind f <;> simp [propertyTok, hk, additionalSchemas]

theorem addProperty_propNames (s : NamedStruct) (acc : Tok) (f : NamedField) :
    propNamesDeep (addProperty s acc f) =
      propNamesDeep acc ++ [resolvedFieldName s f] := by
  simp only [addProperty]
  split <;> simp [propNamesDeep, propertyTok_propNames]

theorem addProperty_cff (s : NamedStruct) (acc : Tok) (f : NamedField) :
    containsFreeFormFalse (addProperty s acc f) = containsFreeFormFalse acc := by
  simp only [addProperty]
  split <;> simp [containsFreeFormFalse, propertyTok_cff]

theorem addProperty_addl (s : NamedStruct) (acc : Tok) (f : NamedField) :
    additionalSchemas (addProperty s acc f) = additionalSchemas acc := by
  simp only [addProperty]
  split <;> simp [additionalSchemas, propertyTok_addl]

theorem foldl_addProperty_propNames (s : NamedStruct) :
    ∀ (fs : List NamedField) (acc : Tok),
    propNamesDeep (fs.foldl (addProperty s) acc) =
      propNamesDeep acc ++ fs.map (resolvedFieldName s) := by
  intro fs
  induction fs with
  | nil => intro acc; simp
  | cons f rest ih =>
    intro acc
    rw [List.foldl_cons, ih, addProperty_propNames]
    simp

theorem foldl_addProperty_cff (s : NamedStruct) :
    ∀ (fs : List NamedField) (acc : Tok),
    containsFreeFormFalse (fs.foldl (addProperty s) acc) =
      containsFreeFormFalse acc := by
  intro fs
  induction fs with
  | nil => intro acc; rfl
  | cons f rest ih =>
    intro acc
    rw [List.foldl_cons, ih, addProperty_cff]

theorem objectTokens_propNames (s : NamedStruct) :
    propNamesDeep (objectTokens s) =
      (visibleFields s).map (resolvedFieldName s) := by
  rw [objectTokens, foldl_addProperty_propNames]
  rfl

theorem objectTokens_cff (s : NamedStruct) :
    containsFreeFormFalse (objectTokens s) = false := by
  rw [objectTokens, foldl_addProperty_cff]
  rfl

theorem appendItems_cff : ∀ (items : List Tok) (base : Tok),
    containsFreeFormFalse (appendItems base items) =
      (containsFreeFormFalse base || items.any containsFreeFormFalse) := by
  intro items
  induction items with
  | nil => intro base; simp [appendItems]
  | cons i rest ih =>
    intro base
    simp [appendItems, ih, containsFreeFormFalse, Bool.or_assoc]

theorem appendItems_propNames : ∀ (items : List Tok) (base : Tok),
    propNamesDeep (appendItems base items) =
      propNamesDeep base ++ (items.map propNamesDeep).flatten := by
  intro items
  induction items with
  | nil => intro base; simp [appendItems]
  | cons i rest ih =>
    intro base
    simp [appendItems, ih, propNamesDeep]

theorem nonMapToks_propNames (l : List NamedField) :
    ((nonMapToks l).map propNamesDeep).flatten = [] := by
  simp [nonMapToks, List.map_map, Function.comp_def, propertyTok_propNames]

theorem nonMapToks_cff (l : List NamedField) :
    (nonMapToks l).any containsFreeFormFalse = false := by
  simp only [nonMapToks, List.any_map, Function.comp_def, propertyTok_cff]
  simp only [List.any_eq_false]
  intro t ht
  obtain ⟨f, _, rfl⟩ := List.mem_map.mp ht
  simp [propertyTok_cff f]

theorem assembleNamed_cff (s : NamedStruct) (obj : Tok) (items : List Tok) :
    containsFreeFormFalse (assembleNamed s obj items) =
      ((if !(flattenFields s).isEmpty && !items.isEmpty then
          containsFreeFormFalse obj || items.any containsFreeFormFalse
        else containsFreeFormFalse obj)
       || (!(!(flattenFields s).isEmpty && !items.isEmpty)
            && s.container.deny_unknown_fields)) := by
  cases hA : (!(flattenFields s).isEmpty && !items.isEmpty) <;>
  cases hD : s.container.deny_unknown_fields <;>
  cases hDep : s.deprecated <;>
  cases hC : (s.comments == "") <;>
    simp [assembleNamed, hA, hD, hDep, hC, containsFreeFormFalse, appendItems_cff,
      Bool.or_comm]

theorem assembleNamed_propNames (s : NamedStruct) (obj : Tok) (items : List Tok)
    (h : (items.map propNamesDeep).flatten = []) :
    propNamesDeep (assembleNamed s obj items) = propNamesDeep obj := by
  cases hA : (!(flattenFields s).isEmpty && !items.isEmpty) <;>
  cases hD : s.container.deny_unknown_fields <;>
  cases hDep : s.deprecated <;>
  cases hC : (s.comments == "") <;>
    simp [assembleNamed, hA, hD, hDep, hC, propNamesDeep, appendItems_propNames, h]

theorem assembleNamed_addl_mem (s : NamedStruct) (obj : Tok) (items : List Tok)
    (x : Tok) (h : x ∈ additionalSchemas obj) :
    x ∈ additionalSchemas (assembleNamed s obj items) := by
  cases hA : (!(flattenFields s).isEmpty && !items.isEmpty) <;>
  cases hD : s.container.deny_unknown_fields <;>
  cases hDep : s.deprecated <;>
  cases hC : (s.comments == "") <;>
    simp [assembleNamed, hA, hD, hDep, hC, additionalSchemas, h]

theorem isEmpty_map {α β : Type _} (f : α → β) (l : List α) :
    (l.map f).isEmpty = l.isEmpty := by
  cases l <;> rfl

/-- Closed form of `NamedStructSchema::to_tokens`, by the number of
flattened-map fields. -/
theorem namedStructTokens_char (s : NamedStruct) :
    namedStructTokens s =
      match mapFlattenFields s with
      | [] => .ok (assembleNamed s (objectTokens s) (nonMapToks (flattenFields s)))
      | [a] => .ok (assembleNamed s
          (.additionalPropertiesSchema (objectTokens s) (propertyTok a))
          (nonMapToks (flattenFields s)))
      | a :: b :: _ =>
          .error (.multipleFlattenedMaps s.structName a.ident b.ident) := by
  unfold namedStructTokens
  rw [processFlatten_eq]
  unfold processFlattenChar mapFlattenFields
  rcases h : (flattenFields s).filter isMapKind with _ | ⟨a, _ | ⟨b, tl⟩⟩ <;> simp [h]

/-- C2: at most one flattened field of a named-fields struct may resolve
to a map-like schema.  With two or more flattened-map fields, synthesis
fails with an error naming the struct and the first two offending field
identifiers; with exactly one, its schema is attached as the object's
`additional_properties` and synthesis succeeds. -/
theorem C2_multiple_flattened_maps :
    (∀ (s : NamedStruct) (a b : NamedField) (rest : List NamedField),
      mapFlattenFields s = a :: b :: rest →
      namedStructTokens s =
        .error (.multipleFlattenedMaps s.structName a.ident b.ident))
    ∧ (∀ (s : NamedStruct) (a : NamedField),
      mapFlattenFields s = [a] →
      ∃ t, namedStructTokens s = .ok t ∧ propertyTok a ∈ additionalSchemas t) := by
  constructor
  · intro s a b rest h
    rw [namedStructTokens_char, h]
  · intro s a h
    rw [namedStructTokens_char, h]
    refine ⟨_, rfl, ?_⟩
    apply assembleNamed_addl_mem
    simp [additionalSchemas]

def c2MapTreeA : TypeTree := { id := 10, isMap := true }

def c2MapTreeB : TypeTree := { id := 11, isMap := true }

def c2FieldA : NamedField :=
  { ident := "m1", tree := c2MapTreeA, rules := { flatten := true } }

def c2FieldB : NamedField :=
  { ident := "m2", tree := c2MapTreeB, rules := { flatten := true } }

def c2StructOne : NamedStruct := { structName := "S", fields := [c2FieldA] }

def c2StructTwo : NamedStruct :=
  { structName := "S", fields := [c2FieldA, c2FieldB] }

/-- C2 witness: both conjuncts applied at concrete structs. -/
theorem C2_multiple_flattened_maps_witness :
    (mapFlattenFields c2StructTwo = [c2FieldA, c2FieldB] ∧
      namedStructTokens c2StructTwo =
        .error (.multipleFlattenedMaps "S" "m1" "m2"))
    ∧ (mapFlattenFields c2StructOne = [c2FieldA] ∧
      ∃ t, namedStructTokens c2StructOne = .ok t ∧
        propertyTok c2FieldA ∈ additionalSchemas t) :=
  ⟨⟨by decide,
    C2_multiple_flattened_maps.1 c2StructTwo c2FieldA c2FieldB [] (by decide)⟩,
   ⟨by decide, C2_multiple_flattened_maps.2 c2StructOne c2FieldA (by decide)⟩⟩

def c3MapTree : TypeTree := { id := 20, isMap := true }

def c3MapField : NamedField :=
  { ident := "extra", tree := c3MapTree, rules := { flatten := true } }

def c3Struct : NamedStruct :=
  { structName := "S"
    fields := [c3MapField]
    container := { deny_unknown_fields := true } }

/-- C3 counterexample: a struct with `deny_unknown_fields` whose only
flattened field is map-like.  Flattening occurred (the flatten list is
non-empty and the map is attached), yet the synthesized tokens still
append `additional_properties(FreeForm(false))`, contradicting the claim
that `additionalProperties` is never set to false when any flattening
occurred. -/
theorem C3_deny_unknown_fields_counterexample :
    flattenFields c3Struct = [c3MapField] ∧
    (namedStructTokens c3Struct).map containsFreeFormFalse = .ok true ∧
    (namedStructTokens c3Struct).map additionalSchemas =
      .ok [propertyTok c3MapField] := by
  refine ⟨by decide, by decide, by decide⟩

/-- C3 amended: for a named-fields struct that synthesizes successfully,
`additionalProperties = false` is emitted iff `deny_unknown_fields` is
set and no flattened field contributed an AllOf item (no flattened field
of non-map kind) — flattened map-like fields alone do not prevent it. -/
theorem C3_deny_unknown_fields :
    ∀ (s : NamedStruct) (t : Tok), namedStructTokens s = .ok t →
    containsFreeFormFalse t =
      (s.container.deny_unknown_fields &&
        ((flattenFields s).filter fun f => !isMapKind f).isEmpty) := by
  intro s t h
  rw [namedStructTokens_char] at h
  rcases hm : mapFlattenFields s with _ | ⟨a, _ | ⟨b, tl⟩⟩ <;> rw [hm] at h
  case nil =>
    injection h with h2
    subst h2
    rw [assembleNamed_cff, objectTokens_cff, nonMapToks_cff]
    cases hFlat : (flattenFields s).isEmpty <;>
      cases hFil : (((flattenFields s).filter fun f => !isMapKind f).isEmpty) <;>
      simp_all [nonMapToks, isEmpty_map, Bool.and_comm]
  case cons.nil =>
    injection h with h2
    subst h2
    rw [assembleNamed_cff, nonMapToks_cff]
    have hO : containsFreeFormFalse
        (Tok.additionalPropertiesSchema (objectTokens s) (propertyTok a)) = false := by
      simp [containsFreeFormFalse, objectTokens_cff, propertyTok_cff]
    cases hFlat : (flattenFields s).isEmpty <;>
      cases hFil : (((flattenFields s).filter fun f => !isMapKind f).isEmpty) <;>
      simp_all [nonMapToks, isEmpty_map, Bool.and_comm]
  case cons.cons =>
    cases h

def c3Plain : NamedStruct :=
  { structName := "P", fields := [], container := { deny_unknown_fields := true } }

/-- C3 witness: the amended equivalence applied at a concrete struct with
`deny_unknown_fields` and no flattening. -/
theorem C3_deny_unknown_fields_witness :
    namedStructTokens c3Plain =
      .ok (Tok.additionalPropertiesFreeForm Tok.objectBuilder false) ∧
    containsFreeFormFalse (Tok.additionalPropertiesFreeForm Tok.objectBuilder false) =
      (c3Plain.container.deny_unknown_fields &&
        ((flattenFields c3Plain).filter fun f => !isMapKind f).isEmpty) :=
  ⟨by decide,
   C3_deny_unknown_fields c3Plain
     (Tok.additionalPropertiesFreeForm Tok.objectBuilder false) (by decide)⟩

/-- C8 amended: the ordered `.property` entries of the synthesized object
are exactly the declaration-order resolved names of the fields that are
neither skipped nor flattened (skipped and flattened fields contribute no
entry).  Duplicates are possible when renames collide: the code performs
no duplicate check (see the counterexample). -/
theorem C8_property_names :
    ∀ (s : NamedStruct) (t : Tok), namedStructTokens s = .ok t →
    propNamesDeep t = (visibleFields s).map (resolvedFieldName s) := by
  intro s t h
  rw [namedStructTokens_char] at h
  rcases hm : mapFlattenFields s with _ | ⟨a, _ | ⟨b, tl⟩⟩ <;> rw [hm] at h
  case nil =>
    injection h with h2
    subst h2
    rw [assembleNamed_propNames _ _ _ (nonMapToks_propNames _), objectTokens_propNames]
  case cons.nil =>
    injection h with h2
    subst h2
    rw [assembleNamed_propNames _ _ _ (nonMapToks_propNames _)]
    simp [propNamesDeep, propertyTok_propNames, objectTokens_propNames]
  case cons.cons =>
    cases h

def c8TreeOpt : TypeTree := { id := 30, isOption := true }

def c8FieldA : NamedField := { ident := "a", tree := c8TreeOpt }

def c8FieldSkip : NamedField :=
  { ident := "s", tree := c8TreeOpt, rules := { skip := true } }

def c8FieldC : NamedField :=
  { ident := "c", tree := c8TreeOpt, rules := { rename := some "x" } }

def c8Struct : NamedStruct :=
  { structName := "S8", fields := [c8FieldA, c8FieldSkip, c8FieldC] }

def c8Out : Tok :=
  Tok.property (Tok.property Tok.objectBuilder "a" (Tok.component c8TreeOpt "" false))
    "x" (Tok.component c8TreeOpt "" false)

/-- C8 witness: the amended property-name equation at a concrete struct
with a plain, a skipped and a renamed field. -/
theorem C8_property_names_witness :
    namedStructTokens c8Struct = .ok c8Out ∧
    propNamesDeep c8Out = (visibleFields c8Struct).map (resolvedFieldName c8Struct) :=
  ⟨by decide, C8_property_names c8Struct c8Out (by decide)⟩

def c8DupA : NamedField := { ident := "a", tree := c8TreeOpt }

def c8DupB : NamedField :=
  { ident := "b", tree := c8TreeOpt, rules := { rename := some "a" } }

def c8DupStruct : NamedStruct := { structName := "D", fields := [c8DupA, c8DupB] }

/-- C8 counterexample: two non-skipped, non-flattened fields whose
resolved names collide (`b` renamed to `a`) yield a duplicated property
name list, refuting the claimed no-duplicates guarantee. -/
theorem C8_property_names_counterexample :
    (namedStructTokens c8DupStruct).map propNamesDeep = .ok ["a", "a"] ∧
    ¬ (["a", "a"] : List String).Nodup := by
  exact ⟨by decide, by decide⟩

theorem taggedVariantTokens_tuple_err (en tag : String) (v : EnumVariant)
    (c : SerdeContainer) (ra : Option RenameRule) (fs : List UnnamedField)
    (h1 : v.shape = .unnamed fs) (h2 : fs.length ≠ 1) :
    taggedVariantTokens en tag v c ra =
      some (.error (.unsupportedInternallyTaggedTuple v.ident)) := by
  simp [taggedVariantTokens, h1, h2]

theorem adjacentlyTaggedVariantTokens_tuple_err (en tag content : String)
    (v : EnumVariant) (c : SerdeContainer) (ra : Option RenameRule)
    (fs : List UnnamedField) (h1 : v.shape = .unnamed fs) (h2 : fs.length ≠ 1) :
    adjacentlyTaggedVariantTokens en tag content v c ra =
      some (.error (.unsupportedAdjacentlyTaggedTuple v.ident)) := by
  simp [adjacentlyTaggedVariantTokens, h1, h2]

theorem taggedVariantTokens_single_ok (en tag : String) (v : EnumVariant)
    (c : SerdeContainer) (ra : Option RenameRule) (f : UnnamedField)
    (h1 : v.shape = .unnamed [f]) :
    ∃ t, taggedVariantTokens en tag v c ra = some (.ok t) := by
  simp [taggedVariantTokens, h1, unnamedStructTokens, variantUnnamedStruct]
  cases hr : f.tree.isObject <;> simp [hr]

theorem adjacentlyTaggedVariantTokens_single_ok (en tag content : String)
    (v : EnumVariant) (c : SerdeContainer) (ra : Option RenameRule)
    (f : UnnamedField) (h1 : v.shape = .unnamed [f]) :
    ∃ t, adjacentlyTaggedVariantTokens en tag content v c ra = some (.ok t) := by
  simp [adjacentlyTaggedVariantTokens, h1, unnamedStructTokens, variantUnnamedStruct]

theorem buildVariants_ok (e : ComplexEnumDecl) :
    ∀ (vs : List EnumVariant) (ts : List Tok),
    buildVariants e vs = some (.ok ts) →
    ∀ v ∈ vs, ∃ t, complexEnumVariantTokens e v = some (.ok t) := by
  intro vs
  induction vs with
  | nil => intro ts _ v hv; simp at hv
  | cons w rest ih =>
    intro ts h v hv
    rcases hw : complexEnumVariantTokens e w with _ | x
    · rw [buildVariants, hw] at h; cases h
    · cases x with
      | error d => rw [buildVariants, hw] at h; cases h
      | ok t1 =>
        rcases List.mem_cons.mp hv with rfl | hmem
        · exact ⟨t1, hw⟩
        · rw [buildVariants, hw] at h
          rcases hr : buildVariants e rest with _ | y
          · rw [hr] at h; cases h
          · cases y with
            | error d => rw [hr] at h; cases h
            | ok ts2 => exact ih ts2 hr v hmem

/-- C1: under the internally or adjacently tagged representation, a
positional (tuple) variant with two or more fields fails synthesis with
the unsupported-tagged-tuple error — and the whole enum declaration then
produces no schema output — while a positional variant with exactly one
field succeeds. -/
theorem C1_unsupported_tagged_tuple :
    (∀ (en tag : String) (v : EnumVariant) (c : SerdeContainer)
      (ra : Option RenameRule) (fs : List UnnamedField),
      v.shape = .unnamed fs → 2 ≤ fs.length →
      taggedVariantTokens en tag v c ra =
        some (.error (.unsupportedInternallyTaggedTuple v.ident)))
    ∧ (∀ (en tag content : String) (v : EnumVariant) (c : SerdeContainer)
      (ra : Option RenameRule) (fs : List UnnamedField),
      v.shape = .unnamed fs → 2 ≤ fs.length →
      adjacentlyTaggedVariantTokens en tag content v c ra =
        some (.error (.unsupportedAdjacentlyTaggedTuple v.ident)))
    ∧ (∀ (en tag : String) (v : EnumVariant) (c : SerdeContainer)
      (ra : Option RenameRule) (f : UnnamedField),
      v.shape = .unnamed [f] →
      ∃ t, taggedVariantTokens en tag v c ra = some (.ok t))
    ∧ (∀ (en tag content : String) (v : EnumVariant) (c : SerdeContainer)
      (ra : Option RenameRule) (f : UnnamedField),
      v.shape = .unnamed [f] →
      ∃ t, adjacentlyTaggedVariantTokens en tag content v c ra = some (.ok t))
    ∧ (∀ (e : ComplexEnumDecl) (v : EnumVariant) (fs : List UnnamedField)
      (out : List Tok × Option String),
      v ∈ e.variants → v.rules.skip = false → v.shape = .unnamed fs →
      2 ≤ fs.length →
      (∀ tag, e.container.enum_repr = .internallyTagged tag →
        complexEnumTokens e ≠ some (.ok out)) ∧
      (∀ tag content, e.container.enum_repr = .adjacentlyTagged tag content →
        complexEnumTokens e ≠ some (.ok out))) := by
  have hlen : ∀ (fs : List UnnamedField), 2 ≤ fs.length → fs.length ≠ 1 := by
    intro fs h; omega
  refine ⟨?_, ?_, ?_, ?_, ?_⟩
  · intro en tag v c ra fs h1 h2
    exact taggedVariantTokens_tuple_err en tag v c ra fs h1 (hlen fs h2)
  · intro en tag content v c ra fs h1 h2
    exact adjacentlyTaggedVariantTokens_tuple_err en tag content v c ra fs h1
      (hlen fs h2)
  · intro en tag v c ra f h1
    exact taggedVariantTokens_single_ok en tag v c ra f h1
  · intro en tag content v c ra f h1
    exact adjacentlyTaggedVariantTokens_single_ok en tag content v c ra f h1
  · intro e v fs out hv hskip hshape h2
    have hmem : v ∈ e.variants.filter fun w => !w.rules.skip :=
      List.mem_filter.mpr ⟨hv, by simp [hskip]⟩
    constructor
    · intro tag hrepr hcontra
      unfold complexEnumTokens at hcontra
      rcases hb : buildVariants e (e.variants.filter fun w => !w.rules.skip)
        with _ | x
      · rw [hb] at hcontra; cases hcontra
      · cases x with
        | error d => rw [hb] at hcontra; cases hcontra
        | ok ts =>
          obtain ⟨t, ht⟩ := buildVariants_ok e _ ts hb v hmem
          simp only [complexEnumVariantTokens, hrepr] at ht
          rw [taggedVariantTokens_tuple_err e.enumName tag v e.container e.renameAll
              fs hshape (hlen fs h2)] at ht
          cases ht
    · intro tag content hrepr hcontra
      unfold complexEnumTokens at hcontra
      rcases hb : buildVariants e (e.variants.filter fun w => !w.rules.skip)
        with _ | x
      · rw [hb] at hcontra; cases hcontra
      · cases x with
        | error d => rw [hb] at hcontra; cases hcontra
        | ok ts =>
          obtain ⟨t, ht⟩ := buildVariants_ok e _ ts hb v hmem
          simp only [complexEnumVariantTokens, hrepr] at ht
          rw [adjacentlyTaggedVariantTokens_tuple_err e.enumName tag content v
              e.container e.renameAll fs hshape (hlen fs h2)] at ht
          cases ht

def c1Tup2 : EnumVariant :=
  { ident := "V", shape := .unnamed [⟨{ id := 0 }⟩, ⟨{ id := 1 }⟩] }

def c1Tup1 : EnumVariant := { ident := "W", shape := .unnamed [⟨{ id := 2 }⟩] }

def c1Enum : ComplexEnumDecl :=
  { enumName := "E", variants := [c1Tup2]
    container := { enum_repr := .internallyTagged "t" } }

/-- C1 witness: the two-field tuple variant errors, the one-field tuple
variant succeeds, and the declaration with the bad variant yields no
schema output. -/
theorem C1_unsupported_tagged_tuple_witness :
    taggedVariantTokens "E" "t" c1Tup2 {} none =
      some (.error (.unsupportedInternallyTaggedTuple "V")) ∧
    (∃ t, taggedVariantTokens "E" "t" c1Tup1 {} none = some (.ok t)) ∧
    complexEnumTokens c1Enum ≠ some (.ok ([], some "t")) :=
  ⟨C1_unsupported_tagged_tuple.1 "E" "t" c1Tup2 {} none _ rfl (by decide),
   C1_unsupported_tagged_tuple.2.2.1 "E" "t" c1Tup1 {} none ⟨{ id := 2 }⟩ rfl,
   (C1_unsupported_tagged_tuple.2.2.2.2 c1Enum c1Tup2 _ ([], some "t")
      (List.mem_singleton_self _) rfl rfl (by decide)).1 "t" rfl⟩

/-- C5: an enum whose variants are all unit-shaped is classified Simple
without a declared discriminant base type and Discriminant (Repr) with
one; any non-unit variant makes it Complex.  Under the Repr
classification every non-skipped variant's schema value is the variant
cast to the declared base type, while Simple values are identifier
strings. -/
theorem C5_enum_classification :
    (∀ d : EnumDecl, (d.variants.all fun v => isUnitShape v.shape) = true →
      d.reprType = none → classifyEnum d = .simple)
    ∧ (∀ (d : EnumDecl) (ty : String),
      (d.variants.all fun v => isUnitShape v.shape) = true →
      d.reprType = some ty → classifyEnum d = .reprE ty)
    ∧ (∀ (d : EnumDecl) (v : EnumVariant), v ∈ d.variants →
      isUnitShape v.shape = false → classifyEnum d = .complexE)
    ∧ (∀ (d : EnumDecl) (ty : String) (val : EnumValue),
      val ∈ reprEnumValues d ty →
      ∃ v, v ∈ d.variants ∧ v.rules.skip = false ∧ val = .castVal v.ident ty)
    ∧ (∀ (d : EnumDecl) (val : EnumValue), val ∈ simpleEnumValues d →
      ∃ name, val = .strVal name) := by
  refine ⟨?_, ?_, ?_, ?_, ?_⟩
  · intro d h1 h2
    simp [classifyEnum, h1, h2]
  · intro d ty h1 h2
    simp [classifyEnum, h1, h2]
  · intro d v hv hu
    have hall : (d.variants.all fun v => isUnitShape v.shape) = false := by
      rw [List.all_eq_false]
      exact ⟨v, hv, by simp [hu]⟩
    simp [classifyEnum, hall]
  · intro d ty val hval
    rw [reprEnumValues] at hval
    obtain ⟨v, hv, rfl⟩ := List.mem_map.mp hval
    obtain ⟨hv1, hv2⟩ := List.mem_filter.mp hv
    exact ⟨v, hv1, by simpa using hv2, rfl⟩
  · intro d val hval
    rw [simpleEnumValues] at hval
    obtain ⟨v, _, rfl⟩ := List.mem_map.mp hval
    exact ⟨_, rfl⟩

def c5Unit : EnumVariant := { ident := "Active", shape := .unit }

def c5EnumPlain : EnumDecl := { enumName := "Status", variants := [c5Unit] }

def c5EnumRepr : EnumDecl :=
  { enumName := "Status", variants := [c5Unit], reprType := some "u8" }

def c5EnumComplex : EnumDecl :=
  { enumName := "Status", variants := [c1Tup1] }

/-- C5 witness: the classification clauses and the Repr value shape at
concrete enum declarations. -/
theorem C5_enum_classification_witness :
    classifyEnum c5EnumPlain = .simple ∧
    classifyEnum c5EnumRepr = .reprE "u8" ∧
    classifyEnum c5EnumComplex = .complexE ∧
    (∃ v, v ∈ c5EnumRepr.variants ∧ v.rules.skip = false ∧
      EnumValue.castVal "Active" "u8" = .castVal v.ident "u8") :=
  ⟨C5_enum_classification.1 c5EnumPlain (by decide) rfl,
   C5_enum_classification.2.1 c5EnumRepr "u8" (by decide) rfl,
   C5_enum_classification.2.2.1 c5EnumComplex c1Tup1
     (List.mem_singleton_self _) rfl,
   C5_enum_classification.2.2.2.1 c5EnumRepr "u8" (.castVal "Active" "u8")
     (by simp [reprEnumValues, c5EnumRepr, c5Unit])⟩

/-- C6: an internally tagged positional variant with exactly one field
whose type resolves to a reference (object) type becomes an AllOf of the
inner schema and a tag-only object; otherwise the tag property is added
directly onto the inner schema. -/
theorem C6_internally_tagged_newtype :
    ∀ (en tag : String) (v : EnumVariant) (c : SerdeContainer)
      (ra : Option RenameRule) (f : UnnamedField),
    v.shape = .unnamed [f] →
    (f.tree.isObject = true →
      taggedVariantTokens en tag v c ra = some (.ok (
        Tok.item (Tok.item Tok.allOfBuilder
            (Tok.component (v.featValueType.getD f.tree) v.comments false))
          (Tok.required (Tok.property (Tok.schemaTypeObject Tok.objectBuilder) tag
            (Tok.enumValues [variantResolvedName v c ra])) tag))))
    ∧ (f.tree.isObject = false →
      taggedVariantTokens en tag v c ra = some (.ok (
        Tok.required (Tok.property
          (Tok.schemaTypeObject
            (Tok.component (v.featValueType.getD f.tree) v.comments false))
          tag (Tok.enumValues [variantResolvedName v c ra])) tag))) := by
  intro en tag v c ra f h1
  constructor <;> intro hobj <;>
    simp [taggedVariantTokens, h1, unnamedStructTokens, variantUnnamedStruct, hobj]

def c6RefField : UnnamedField := ⟨{ id := 3, isObject := true }⟩

def c6RefVar : EnumVariant := { ident := "R", shape := .unnamed [c6RefField] }

def c6PlainField : UnnamedField := ⟨{ id := 2 }⟩

/-- C6 witness: both branches applied at concrete variants. -/
theorem C6_internally_tagged_newtype_witness :
    taggedVariantTokens "E" "t" c6RefVar {} none = some (.ok (
      Tok.item (Tok.item Tok.allOfBuilder
          (Tok.component c6RefField.tree "" false))
        (Tok.required (Tok.property (Tok.schemaTypeObject Tok.objectBuilder) "t"
          (Tok.enumValues ["R"])) "t"))) ∧
    taggedVariantTokens "E" "t" c1Tup1 {} none = some (.ok (
      Tok.required (Tok.property
        (Tok.schemaTypeObject (Tok.component c6PlainField.tree "" false))
        "t" (Tok.enumValues ["W"])) "t")) :=
  ⟨(C6_internally_tagged_newtype "E" "t" c6RefVar {} none c6RefField rfl).1 rfl,
   (C6_internally_tagged_newtype "E" "t" c1Tup1 {} none c6PlainField rfl).2 rfl⟩

/-- C7: a positional struct with exactly one field is exactly the inner
element's schema with no array wrapper; with more than one field the
result is an array node with `min_items = max_items = N` and the declared
description, regardless of homogeneity; heterogeneous field types make the
element schema a generic free-form object, homogeneous ones keep the
shared element schema. -/
theorem C7_unnamed_struct :
    (∀ (s : UnnamedStruct) (f : UnnamedField), s.fields = [f] →
      unnamedStructTokens s =
        some (Tok.component (s.featValueType.getD f.tree) s.comments s.deprecated))
    ∧ (∀ (s : UnnamedStruct) (t : Tok), 1 < s.fields.length →
      unnamedStructTokens s = some t →
      minItemsOf t = some s.fields.length ∧
      maxItemsOf t = some s.fields.length ∧
      arrayDescription t = some s.comments)
    ∧ (∀ (s : UnnamedStruct) (t : Tok) (f g : UnnamedField)
        (rest : List UnnamedField),
      s.fields = f :: g :: rest →
      ((g :: rest).all fun x => decide (x.tree = f.tree)) = false →
      unnamedStructTokens s = some t →
      arrayElement t = some (if s.deprecated then Tok.deprecatedTag Tok.objectBuilder
        else Tok.objectBuilder))
    ∧ (∀ (s : UnnamedStruct) (t : Tok) (f g : UnnamedField)
        (rest : List UnnamedField),
      s.fields = f :: g :: rest →
      ((g :: rest).all fun x => decide (x.tree = f.tree)) = true →
      unnamedStructTokens s = some t →
      arrayElement t =
        some (Tok.component (s.featValueType.getD f.tree) s.comments s.deprecated)) := by
  refine ⟨?_, ?_, ?_, ?_⟩
  · intro s f h
    simp [unnamedStructTokens, h]
  · intro s t hlen hsome
    rcases hf : s.fields with _ | ⟨f0, rest⟩
    · rw [hf] at hlen; simp at hlen
    · rw [hf] at hlen
      simp only [List.length_cons] at hlen
      have hc : 1 < rest.length + 1 := hlen
      simp only [unnamedStructTokens, hf, hc, if_pos] at hsome
      injection hsome with hsome
      subst hsome
      simp [minItemsOf, maxItemsOf, arrayDescription, hf]
  · intro s t f g rest hf hAll hsome
    have hc : 1 < (g :: rest).length + 1 := by simp
    simp only [unnamedStructTokens, hf, hAll, hc, if_pos, Bool.false_eq_true,
      if_neg] at hsome
    injection hsome with hsome
    subst hsome
    simp [arrayElement]
  · intro s t f g rest hf hAll hsome
    have hc : 1 < (g :: rest).length + 1 := by simp
    simp only [unnamedStructTokens, hf, hAll, hc, if_pos] at hsome
    injection hsome with hsome
    subst hsome
    simp [arrayElement]

def c7Single : UnnamedStruct := { structName := "U1", fields := [⟨{ id := 5 }⟩] }

def c7Hetero : UnnamedStruct :=
  { structName := "U2", fields := [⟨{ id := 5 }⟩, ⟨{ id := 6 }⟩], comments := "d" }

def c7Homo : UnnamedStruct :=
  { structName := "U3"
    fields := [⟨{ id := 5 }⟩, ⟨{ id := 5 }⟩, ⟨{ id := 5 }⟩] }

/-- C7 witness: the clauses applied at concrete one-field, heterogeneous
two-field and homogeneous three-field positional structs. -/
theorem C7_unnamed_struct_witness :
    unnamedStructTokens c7Single = some (Tok.component { id := 5 } "" false) ∧
    (∀ t, unnamedStructTokens c7Hetero = some t →
      minItemsOf t = some 2 ∧ maxItemsOf t = some 2 ∧
      arrayDescription t = some "d") ∧
    (∀ t, unnamedStructTokens c7Hetero = some t →
      arrayElement t = some Tok.objectBuilder) ∧
    (∀ t, unnamedStructTokens c7Homo = some t →
      arrayElement t = some (Tok.component { id := 5 } "" false)) :=
  ⟨C7_unnamed_struct.1 c7Single ⟨{ id := 5 }⟩ rfl,
   fun t ht => C7_unnamed_struct.2.1 c7Hetero t (by decide) ht,
   fun t ht =>
     C7_unnamed_struct.2.2.1 c7Hetero t ⟨{ id := 5 }⟩ ⟨{ id := 6 }⟩ [] rfl
       (by decide) ht,
   fun t ht =>
     C7_unnamed_struct.2.2.2 c7Homo t ⟨{ id := 5 }⟩ ⟨{ id := 5 }⟩ [⟨{ id := 5 }⟩]
       rfl (by decide) ht⟩

/-- C10: synthesizing a positional struct with zero fields unwraps a
missing first field (modelled as `none`, the panic) instead of returning
an error or an empty schema; with a non-empty field list the synthesizer
always produces output. -/
theorem C10_empty_tuple_panics :
    ∀ s : UnnamedStruct, unnamedStructTokens s = none ↔ s.fields = [] := by
  intro s
  rcases hf : s.fields with _ | ⟨f, rest⟩
  · simp [unnamedStructTokens, hf]
  · simp only [unnamedStructTokens, hf]
    constructor
    · intro h
      split at h <;> cases h
    · intro h
      cases h

/-- C9 amended: name resolution for fields and variants is total and
follows the precedence explicit rename (serde rename, then rename
feature) over inherited rename-all over the identifier unchanged; the
raw-identifier marker is stripped from field identifiers before
resolution, while variant identifiers are used verbatim. -/
theorem C9_name_resolution :
    (∀ (s : NamedStruct) (f : NamedField) (r : String),
      f.rules.rename = some r → resolvedFieldName s f = r)
    ∧ (∀ (s : NamedStruct) (f : NamedField) (r : String),
      f.rules.rename = none → f.featRename = some r → resolvedFieldName s f = r)
    ∧ (∀ (s : NamedStruct) (f : NamedField) (rule : RenameRule),
      f.rules.rename = none → f.featRename = none →
      s.container.rename_all = some rule →
      resolvedFieldName s f = rule.apply (stripRaw f.ident))
    ∧ (∀ (s : NamedStruct) (f : NamedField) (rule : RenameRule),
      f.rules.rename = none → f.featRename = none →
      s.container.rename_all = none → s.renameAll = some rule →
      resolvedFieldName s f = rule.apply (stripRaw f.ident))
    ∧ (∀ (s : NamedStruct) (f : NamedField),
      f.rules.rename = none → f.featRename = none →
      s.container.rename_all = none → s.renameAll = none →
      resolvedFieldName s f = stripRaw f.ident)
    ∧ (∀ rest : List Char, stripRaw (String.mk ('r' :: '#' :: rest)) = String.mk rest)
    ∧ (∀ (v : EnumVariant) (c : SerdeContainer) (ra : Option RenameRule) (r : String),
      v.rules.rename = some r → variantResolvedName v c ra = r)
    ∧ (∀ (v : EnumVariant) (c : SerdeContainer) (ra : Option RenameRule) (r : String),
      v.rules.rename = none → v.featRename = some r → variantResolvedName v c ra = r)
    ∧ (∀ (v : EnumVariant) (c : SerdeContainer) (ra : Option RenameRule)
        (rule : RenameRule),
      v.rules.rename = none → v.featRename = none → c.rename_all = some rule →
      variantResolvedName v c ra = rule.apply v.ident)
    ∧ (∀ (v : EnumVariant) (c : SerdeContainer) (rule : RenameRule),
      v.rules.rename = none → v.featRename = none → c.rename_all = none →
      variantResolvedName v c (some rule) = rule.apply v.ident)
    ∧ (∀ (v : EnumVariant) (c : SerdeContainer),
      v.rules.rename = none → v.featRename = none → c.rename_all = none →
      variantResolvedName v c none = v.ident) := by
  refine ⟨?_, ?_, ?_, ?_, ?_, ?_, ?_, ?_, ?_, ?_, ?_⟩
  · intro s f r h1
    simp [resolvedFieldName, renameOpt, Option.orElse, h1]
  · intro s f r h1 h2
    simp [resolvedFieldName, renameOpt, Option.orElse, h1, h2]
  · intro s f rule h1 h2 h3
    simp [resolvedFieldName, renameOpt, Option.orElse, h1, h2, h3]
  · intro s f rule h1 h2 h3 h4
    simp [resolvedFieldName, renameOpt, Option.orElse, h1, h2, h3, h4]
  · intro s f h1 h2 h3 h4
    simp [resolvedFieldName, renameOpt, Option.orElse, h1, h2, h3, h4]
  · intro rest
    rfl
  · intro v c ra r h1
    simp [variantResolvedName, rename_enum_variant, renameOpt, Option.orElse, h1]
  · intro v c ra r h1 h2
    simp [variantResolvedName, rename_enum_variant, renameOpt, Option.orElse, h1, h2]
  · intro v c ra rule h1 h2 h3
    simp [variantResolvedName, rename_enum_variant, renameOpt, Option.orElse,
      h1, h2, h3]
  · intro v c rule h1 h2 h3
    simp [variantResolvedName, rename_enum_variant, renameOpt, Option.orElse,
      h1, h2, h3]
  · intro v c h1 h2 h3
    simp [variantResolvedName, rename_enum_variant, renameOpt, Option.orElse,
      h1, h2, h3]

def c9RawVariant : EnumVariant := { ident := "r#try", shape := .unit }

/-- C9 counterexample: a variant whose identifier carries the
raw-identifier marker resolves to the marker-carrying spelling — variant
name resolution performs no `r#` stripping, refuting the claim that the
marker is stripped for every field and variant. -/
theorem C9_name_resolution_counterexample :
    variantResolvedName c9RawVariant {} none = "r#try" ∧
    stripRaw "r#try" = "try" ∧
    ("r#try" : String) ≠ "try" :=
  ⟨by decide, by decide, by decide⟩

def c9RawField : NamedField := { ident := "r#fn", tree := { id := 40 } }

def c9Struct : NamedStruct := { structName := "N", fields := [c9RawField] }

/-- C9 witness: the identifier-unchanged clause applied at a concrete
raw-identifier field, together with the concrete stripping. -/
theorem C9_name_resolution_witness :
    resolvedFieldName c9Struct c9RawField = stripRaw "r#fn" ∧
    stripRaw "r#fn" = "fn" :=
  ⟨C9_name_resolution.2.2.2.2.1 c9Struct c9RawField rfl rfl rfl rfl, by decide⟩

theorem stripLastArgs_append :
    ∀ (segs : List PathSegment) (seg : PathSegment),
    stripLastArgs (segs ++ [seg]) = segs ++ [{ seg with args := "" }] := by
  intro segs seg
  induction segs with
  | nil => rfl
  | cons s rest ih =>
    cases rest with
    | nil => rfl
    | cons b l =>
      simp only [List.cons_append, List.append_eq, stripLastArgs] at ih ⊢
      rw [ih]

/-- C4 amended: without a schema-as override the name is the type's own
identifier; with an override the name is the full override path rendered
with `.` separators, with the generic arguments stripped from the last
segment only. -/
theorem C4_schema_name :
    (∀ ident : String, schemaName ident none = ident)
    ∧ (∀ (ident : String) (segs : List PathSegment) (seg : PathSegment),
      schemaName ident (some (segs ++ [seg])) =
        String.intercalate "."
          ((segs.map fun s => s.ident ++ s.args) ++ [seg.ident])) := by
  constructor
  · intro ident; rfl
  · intro ident segs seg
    simp [schemaName, format_path_ref, stripLastArgs_append, List.map_append]

/-- C4 counterexample: a two-segment override path.  The code renders
the full path dotted (`api.Value`), not the last path segment alone
(`Value`), refuting the claim that the last path segment becomes the
name. -/
theorem C4_schema_name_counterexample :
    schemaName "MyType" (some [{ ident := "api" }, { ident := "Value" }]) =
      "api.Value" ∧
    ("api.Value" : String) ≠ "Value" :=
  ⟨by decide, by decide⟩
